import Mathlib

/-!
# Verification of the `typing_schema` type-to-schema converter

This file gives a shallow embedding of `typing_schema/converter.py` and
`typing_schema/model.py` and proves/refutes the specification claims about
the recursive type-to-schema conversion algorithm.

Schemas in the source are Python `TypedDict`s, i.e. plain insertion-ordered
string-keyed dictionaries; we model them as association lists of
`String × JVal` where `JVal` is a runtime value (string, int, float marker,
bool, None, list, dict).  Python type annotations are modelled by the
inductive `Ty`, whose constructors correspond exactly to the classification
predicates of `converter.py` (`_is_union`, `_is_array`, `_is_annotated`,
`_is_literal`, `_is_enum`, `is_typeddict`/`is_dataclass`, `_is_dict`,
the primitive mapping, `callable`, and the otherwise-unsupported case).
-/

/-- A Python runtime value as it can appear inside a schema dictionary:
strings, ints, floats (kept opaque, carried as their literal text), bools,
`None`, lists and dicts. -/
inductive JVal where
  | str (s : String)
  | int (n : Int)
  | float (lit : String)
  | bool (b : Bool)
  | null
  | list (xs : List JVal)
  | dict (fs : List (String × JVal))

/-- A schema document: a Python dict from string keys to values
(`BaseSchema` and its variants in `model.py` are `TypedDict`s, i.e. plain
dicts at runtime). -/
abbrev Schema := List (String × JVal)

/-- `k in s.keys()` for a Python dict modelled as an association list. -/
def hasKey (s : Schema) (k : String) : Bool :=
  s.any (fun p => p.1 == k)

/-- `s[k]` lookup (as an `Option`). -/
def jget (s : Schema) (k : String) : Option JVal :=
  (s.find? (fun p => p.1 == k)).map (fun p => p.2)

/-- Python dict assignment `s[k] = v`: overwrite in place when the key is
present (keeping its position), otherwise append at the end. -/
def jset (s : Schema) (k : String) (v : JVal) : Schema :=
  if hasKey s k then s.map (fun p => if p.1 == k then (k, v) else p)
  else s ++ [(k, v)]

/-- The membership test `v in ["array", "object"]` from
`_convert_union` (line 102 of `converter.py`); only the strings `"array"`
and `"object"` compare equal to those list elements under Python `==`. -/
def isArrObj (v : JVal) : Bool :=
  match v with
  | .str s => s == "array" || s == "object"
  | _ => false

/-- The per-member test of `_convert_union`'s collapse condition:
`"type" in s.keys() and s["type"] not in ["array", "object"]`. -/
def scalarOk (s : Schema) : Bool :=
  match jget s "type" with
  | some v => !isArrObj v
  | none => false

/-- `s["type"]` under the guard that the key is present (used only inside
the collapse branch, where `scalarOk` guarantees presence). -/
def getTypeVal (s : Schema) : JVal :=
  (jget s "type").getD JVal.null

/-- Whether a value is a plain string (used to state the scalar-kind
invariant of `model.py`'s `ValueTypeItem`). -/
def isStrVal : JVal → Bool
  | .str _ => true
  | _ => false

/-- The kind of a callable parameter as reported by `inspect`:
ordinary, `*args` (VAR_POSITIONAL) or `**kwargs` (VAR_KEYWORD). -/
inductive PKind where
  | positional
  | varPositional
  | varKeyword
deriving DecidableEq, Repr

/-- A Python type annotation, classified exactly as `_convert_core`
classifies its argument.

* `str`/`int`/`float`/`bool`/`bareDict`/`bareList` — the keys of the
  primitive `mapping` at lines 233–240 (a bare `dict`/`list` class has
  `get_origin` `None`, so it is *not* matched by `_is_dict`/`_is_array`);
* `noneType` — `type(None)`;
* `union ms` — a `Union`/`|` annotation with `get_args` equal to `ms`;
* `arr args` — a parameterized `list`/`tuple`/`set` with `get_args` `args`;
* `annotated inner meta` — `Annotated[inner, *meta]` where the side-channel
  metadata values are runtime values `meta`;
* `lit vals` — `Literal[*vals]`;
* `enumT vals` — an `enum.Enum` subclass whose members' `.value`s are
  `vals` in declaration order;
* `record doc fields` — a `TypedDict`/dataclass with `__doc__` `doc` and
  `__annotations__` `fields` in declaration order;
* `paramDict args` — a parameterized `dict[...]` (`get_origin is dict`);
* `func doc params` — a callable with docstring `doc` and signature
  parameters `params`, each `(name, kind, annotation?, default?)`;
* `pyd s` — a type exposing `model_json_schema()` returning `s`;
* `other name` — a non-callable object matching no classification rule. -/
inductive Ty where
  | str
  | int
  | float
  | bool
  | bareDict
  | bareList
  | noneType
  | union (ms : List Ty)
  | arr (args : List Ty)
  | annotated (inner : Ty) (meta : List JVal)
  | lit (vals : List JVal)
  | enumT (vals : List JVal)
  | record (doc : Option String) (fields : List (String × Ty))
  | paramDict (args : List Ty)
  | func (doc : Option String)
      (params : List (String × PKind × Option Ty × Option JVal))
  | pyd (schema : List (String × JVal))
  | other (name : String)

/-- The two error shapes of the converter, both raised as `ValueError`:
`Unsupported type: {object}` (line 248) and
`Parameter '{name}' is missing a type annotation.` (line 135). -/
inductive Err where
  | unsupported (t : Ty)
  | missingAnn (name : String)

/-- `type(v)` for a runtime value: the Python class of a default value,
used by `_convert_function` when a parameter has a default but no
annotation (`test_annotation = type(param.default)`). -/
def typeOfVal : JVal → Ty
  | .str _ => .str
  | .int _ => .int
  | .float _ => .float
  | .bool _ => .bool
  | .null => .noneType
  | .list _ => .bareList
  | .dict _ => .bareDict

/-- The primitive `mapping` of `_convert_core` (lines 233–240):
`{str: "string", int: "integer", float: "number", bool: "boolean",
dict: "object", list: "array"}`. -/
def primName : Ty → Option String
  | .str => some "string"
  | .int => some "integer"
  | .float => some "number"
  | .bool => some "boolean"
  | .bareDict => some "object"
  | .bareList => some "array"
  | _ => none

/-- Python `==` comparison of an annotation against `type(None)`. -/
def isNoneTy : Ty → Bool
  | .noneType => true
  | _ => false

/-- `type(None) in annotations` (line 91). -/
def containsNone (ms : List Ty) : Bool :=
  ms.any isNoneTy

/-- Whether an annotation is a union (`_is_union`). -/
def isUnionTy : Ty → Bool
  | .union _ => true
  | _ => false

/-- Extract the payload of a plain string value. -/
def strOf : JVal → Option String
  | .str s => some s
  | _ => none

/-- The built-in annotated-doc extractor `_hande_annotated_doc`: scan the
`get_args` tuple from its second element on (`args[1:]`, i.e. skipping the
wrapped type itself) and return the first value that is a plain string. -/
def handeAnnotatedDoc (_ : Ty) (meta : List JVal) : Option String :=
  meta.findSome? strOf

/-- The converter configuration `_Converter.__init__`: the
`raise_when_unsupported` flag, the optional `type_handler` hook, the
optional `annotated_doc_handler` hook (receiving the wrapped type and the
metadata values, i.e. the full `get_args` tuple), and whether the pydantic
delegate is enabled (`find_spec("pydantic") is not None`). -/
structure Conv where
  raiseUnsupported : Bool
  typeHandler : Option (Ty → Schema)
  docHandler : Option (Ty → List JVal → Option String)
  enablePydantic : Bool

/-- `self.to_doc = annotated_doc_handler or self._hande_annotated_doc`. -/
def toDoc (c : Conv) : Ty → List JVal → Option String :=
  match c.docHandler with
  | some f => f
  | none => handeAnnotatedDoc

/-- The `type_handler` probe of `_convert_core` (lines 162–165): call the
hook and use its result only when it is truthy (a non-empty schema). -/
def hookResult (c : Conv) (t : Ty) : Option Schema :=
  match c.typeHandler with
  | some th =>
    let s := th t
    if s.isEmpty then none else some s
  | none => none

/-- The pydantic delegate probe (`_convert_pydantic_model`, used at lines
167–170): when pydantic is enabled and the type exposes
`model_json_schema`, use the produced document if it is truthy. -/
def pydResult (c : Conv) (t : Ty) : Option Schema :=
  if c.enablePydantic then
    match t with
    | .pyd s => if s.isEmpty then none else some s
    | _ => none
  else none

/-- Attach a docstring as `description` when it is truthy
(`if hasattr(object, "__doc__") and object.__doc__:`). -/
def attachDoc (s : Schema) (doc : Option String) : Schema :=
  match doc with
  | some d => if d = "" then s else jset s "description" (JVal.str d)
  | none => s

/-- Resolution of the test annotation for one parameter (lines 127–137):
use the declared annotation; when absent, the type of the default value;
when both are absent, fall back to `dict` unless
`raise_when_unsupported`, in which case raise naming the parameter. -/
def testAnnResolve (c : Conv) (name : String) (ann : Option Ty)
    (dflt : Option JVal) : Except Err Ty :=
  match ann with
  | some a => .ok a
  | none =>
    match dflt with
    | some d => .ok (typeOfVal d)
    | none =>
      if c.raiseUnsupported then .error (.missingAnn name)
      else .ok Ty.bareDict

/-- Every type produced by `typeOfVal` is a leaf constructor. -/
theorem sizeOf_typeOfVal (v : JVal) : sizeOf (typeOfVal v) = 1 := by
  cases v <;> rfl

/-- The resolved test annotation is no larger than the declared one (it is
either the declared annotation or a leaf type). -/
theorem sizeOf_testAnnResolve {c : Conv} {name : String} {ann : Option Ty}
    {dflt : Option JVal} {t : Ty}
    (h : testAnnResolve c name ann dflt = .ok t) :
    sizeOf t ≤ 1 + sizeOf ann := by
  unfold testAnnResolve at h
  cases ann with
  | some a =>
    simp only [Except.ok.injEq] at h
    subst h
    simp
    omega
  | none =>
    cases dflt with
    | some d =>
      simp only [Except.ok.injEq] at h
      subst h
      simp [sizeOf_typeOfVal]
    | none =>
      by_cases hr : c.raiseUnsupported = true
      · simp [hr] at h
      · simp [hr] at h
        subst h
        simp

mutual

/-- `_Converter._convert_core`: classify an annotation and produce
`(schema, required)` or raise. -/
def convertCore (c : Conv) (t : Ty) : Except Err (Schema × Bool) :=
  match hookResult c t with
  | some s => .ok (s, true)
  | none =>
    match pydResult c t with
    | some s => .ok (s, true)
    | none =>
      match t with
      | .union ms => convertUnion c ms
      | .arr args =>
        match convertUnion c args with
        | .error e => .error e
        | .ok (itemSchema, _) =>
          .ok ([("type", JVal.str "array"), ("items", JVal.dict itemSchema)],
            true)
      | .annotated inner meta =>
        match convertCore c inner with
        | .error e => .error e
        | .ok (s, r) =>
          if hasKey s "description" then .ok (s, r)
          else
            match toDoc c inner meta with
            | some d =>
              if d = "" then .ok (s, r)
              else .ok (jset s "description" (JVal.str d), r)
            | none => .ok (s, r)
      | .lit vals =>
        match vals with
        | [] => .ok ([("type", JVal.str "null")], false)
        | [v] => .ok ([("const", v)], true)
        | _ => .ok ([("enum", JVal.list vals)], true)
      | .enumT vals => .ok ([("enum", JVal.list vals)], true)
      | .record doc fields =>
        match convertFields c fields [] [] with
        | .error e => .error e
        | .ok (props, req) =>
          .ok (attachDoc
            [("type", JVal.str "object"),
             ("properties", JVal.dict props),
             ("required", JVal.list (req.map JVal.str))] doc, true)
      | .paramDict _ => .ok ([("type", JVal.str "object")], true)
      | .noneType => .ok ([("type", JVal.str "null")], false)
      | .func doc params => convertFunction c doc params
      | t' =>
        match primName t' with
        | some k => .ok ([("type", JVal.str k)], true)
        | none =>
          if c.raiseUnsupported then .error (.unsupported t')
          else .ok ([("type", JVal.str "object")], true)
termination_by (sizeOf t, 0)

/-- `_Converter._convert_union`: `require = not (type(None) in members)`;
zero members give `Value{type: null}`/not-required, one member recurses and
pairs the member's schema with the union-level `require`, several members
recurse into all and either collapse into a single `Value` (when every
member schema has a `type` that is not `"array"`/`"object"`) or build a
`OneOf`. -/
def convertUnion (c : Conv) (ms : List Ty) : Except Err (Schema × Bool) :=
  match ms with
  | [] => .ok ([("type", JVal.str "null")], false)
  | [m] =>
    match convertCore c m with
    | .error e => .error e
    | .ok (s, _) => .ok (s, !containsNone [m])
  | m₁ :: m₂ :: rest =>
    match convertList c (m₁ :: m₂ :: rest) with
    | .error e => .error e
    | .ok schemas =>
      if schemas.all scalarOk then
        .ok ([("type", JVal.list (schemas.map getTypeVal))],
          !containsNone (m₁ :: m₂ :: rest))
      else
        .ok ([("oneOf", JVal.list (schemas.map JVal.dict))],
          !containsNone (m₁ :: m₂ :: rest))
termination_by (sizeOf ms, 2)

/-- The member-schema comprehension of `_convert_union` (line 99):
`[self._convert_core(ann)[0] for ann in annotations]`. -/
def convertList (c : Conv) (ms : List Ty) : Except Err (List Schema) :=
  match ms with
  | [] => .ok []
  | m :: rest =>
    match convertCore c m with
    | .error e => .error e
    | .ok (s, _) =>
      match convertList c rest with
      | .error e => .error e
      | .ok ss => .ok (s :: ss)
termination_by (sizeOf ms, 1)

/-- The field loop of the TypedDict/dataclass branch (lines 212–216),
with the `properties` dict and `required` list as accumulators. -/
def convertFields (c : Conv) (fields : List (String × Ty))
    (props : List (String × JVal)) (req : List String) :
    Except Err (List (String × JVal) × List String) :=
  match fields with
  | [] => .ok (props, req)
  | (k, v) :: rest =>
    match convertCore c v with
    | .error e => .error e
    | .ok (s, isReq) =>
      convertFields c rest (jset props k (JVal.dict s))
        (if isReq then req ++ [k] else req)
termination_by (sizeOf fields, 1)

/-- `_Converter._convert_function`: convert the parameter list and wrap it
into an `ObjectSchema`, attaching the docstring when truthy; a callable is
always reported required. -/
def convertFunction (c : Conv) (doc : Option String)
    (params : List (String × PKind × Option Ty × Option JVal)) :
    Except Err (Schema × Bool) :=
  match convertParams c params [] [] with
  | .error e => .error e
  | .ok (props, req) =>
    .ok (attachDoc
      [("type", JVal.str "object"),
       ("properties", JVal.dict props),
       ("required", JVal.list (req.map JVal.str))] doc, true)
termination_by (sizeOf params, 3)

/-- The parameter loop of `_convert_function` (lines 116–146), with the
`properties` dict and `required` list as accumulators: skip `*args`,
`**kwargs` and `self`; resolve the test annotation (declared annotation,
else `type(default)`, else `dict` when not raising, else raise naming the
parameter); convert it; attach a present default as `default`; record the
parameter in `required` iff it is required and has no default. -/
def convertParams (c : Conv)
    (params : List (String × PKind × Option Ty × Option JVal))
    (props : List (String × JVal)) (req : List String) :
    Except Err (List (String × JVal) × List String) :=
  match params with
  | [] => .ok (props, req)
  | (name, kind, ann, dflt) :: rest =>
    if kind = PKind.varPositional ∨ kind = PKind.varKeyword ∨ name = "self"
    then convertParams c rest props req
    else
      match h : testAnnResolve c name ann dflt with
      | .error e => .error e
      | .ok testAnn =>
        have _hsz : sizeOf testAnn ≤ 1 + sizeOf ann := sizeOf_testAnnResolve h
        match convertCore c testAnn with
        | .error e => .error e
        | .ok (s, isReq) =>
          let s' := match dflt with
            | some d => jset s "default" d
            | none => s
          convertParams c rest (jset props name (JVal.dict s'))
            (if isReq && dflt.isNone then req ++ [name] else req)
termination_by (sizeOf params, 2)

end

/-- A hook-free converter with the given `raise_when_unsupported` flag and
annotated-doc handler (no `type_handler`, pydantic delegate absent). -/
def mkc (r : Bool) (dh : Option (Ty → List JVal → Option String)) : Conv :=
  ⟨r, none, dh, false⟩

/-! ## Basic unfolding lemmas for hook-free converters -/

/-- A converter without a `type_handler` never takes the hook path. -/
theorem hookResult_mkc (r : Bool)
    (dh : Option (Ty → List JVal → Option String)) (t : Ty) :
    hookResult (mkc r dh) t = none := by
  simp [hookResult, mkc]

/-- A converter with pydantic absent never takes the delegate path. -/
theorem pydResult_mkc (r : Bool)
    (dh : Option (Ty → List JVal → Option String)) (t : Ty) :
    pydResult (mkc r dh) t = none := by
  simp [pydResult, mkc]

/-- On a union annotation a hook-free converter runs `_convert_union` on
the member list. -/
theorem core_union_mkc (r : Bool)
    (dh : Option (Ty → List JVal → Option String)) (ms : List Ty) :
    convertCore (mkc r dh) (Ty.union ms) = convertUnion (mkc r dh) ms := by
  rw [convertCore, hookResult_mkc, pydResult_mkc]

/-- Conversion of `type(None)` (line 230–231). -/
theorem core_none_mkc (r : Bool)
    (dh : Option (Ty → List JVal → Option String)) :
    convertCore (mkc r dh) Ty.noneType =
      .ok ([("type", JVal.str "null")], false) := by
  rw [convertCore, hookResult_mkc, pydResult_mkc]

/-- When the `type_handler` hook fires (returns a truthy schema), the
converter uses it verbatim and reports required=true. -/
theorem core_hook_some {c : Conv} {t : Ty} {s : Schema}
    (hh : hookResult c t = some s) : convertCore c t = .ok (s, true) := by
  cases t <;> try simp [convertCore, hh]
  rename_i vals
  cases vals with
  | nil => simp [convertCore, hh]
  | cons v vs =>
    cases vs with
    | nil => simp [convertCore, hh]
    | cons v₂ vs₂ => simp [convertCore, hh]

/-- When the hook declines and the pydantic delegate fires, the converter
uses the delegate's schema verbatim and reports required=true. -/
theorem core_pyd_some {c : Conv} {t : Ty} {s : Schema}
    (hh : hookResult c t = none) (hp : pydResult c t = some s) :
    convertCore c t = .ok (s, true) := by
  cases t <;> try simp [convertCore, hh, hp]
  rename_i vals
  cases vals with
  | nil => simp [convertCore, hh, hp]
  | cons v vs =>
    cases vs with
    | nil => simp [convertCore, hh, hp]
    | cons v₂ vs₂ => simp [convertCore, hh, hp]

/-! ## Claim C8: constant-literal conversion -/

/-- C8: for a constant-literal type description, zero allowed values give
`Value{type: null}` with required=false; exactly one gives
`Constant{const: value}` with required=true; more than one gives
`Enumeration{enum: values}` in declaration order with required=true. -/
theorem c8_literal_cases (r : Bool)
    (dh : Option (Ty → List JVal → Option String)) :
    (convertCore (mkc r dh) (Ty.lit []) =
      .ok ([("type", JVal.str "null")], false)) ∧
    (∀ v : JVal, convertCore (mkc r dh) (Ty.lit [v]) =
      .ok ([("const", v)], true)) ∧
    (∀ (v₁ v₂ : JVal) (vs : List JVal),
      convertCore (mkc r dh) (Ty.lit (v₁ :: v₂ :: vs)) =
        .ok ([("enum", JVal.list (v₁ :: v₂ :: vs))], true)) := by
  refine ⟨?_, fun v => ?_, fun v₁ v₂ vs => ?_⟩ <;>
    simp [convertCore, hookResult, pydResult, mkc]

/-! ## Claim C10: keyed-mapping (dict) conversion -/

/-- C10: every keyed-mapping (dict) annotation, parameterized or bare,
converts to the bare schema `{"type": "object"}` (no properties, no
`additionalProperties`) with required=true; a parameterized dict's key and
value arguments are ignored entirely (the result does not depend on
`args`, so they are never recursed into). -/
theorem c10_dict_schema (r : Bool)
    (dh : Option (Ty → List JVal → Option String)) (args : List Ty) :
    (convertCore (mkc r dh) (Ty.paramDict args) =
      .ok ([("type", JVal.str "object")], true)) ∧
    (convertCore (mkc r dh) Ty.bareDict =
      .ok ([("type", JVal.str "object")], true)) := by
  constructor <;> simp [convertCore, hookResult, pydResult, mkc, primName]

/-! ## Claim C5: unsupported-type policy -/

/-- C5: a type description matching no classification rule raises the
unsupported-type error naming the offending description when
`raise_when_unsupported` is true (no partial schema), and falls back to an
unconstrained `{"type": "object"}` schema with required=true when false; a
callable parameter lacking both an annotation and a default follows the
same per-call policy, with the error naming the parameter. -/
theorem c5_unsupported_policy (n pname : String)
    (dh : Option (Ty → List JVal → Option String)) (hp : pname ≠ "self") :
    (convertCore (mkc true dh) (Ty.other n) =
      .error (.unsupported (Ty.other n))) ∧
    (convertCore (mkc false dh) (Ty.other n) =
      .ok ([("type", JVal.str "object")], true)) ∧
    (convertCore (mkc true dh)
        (Ty.func none [(pname, PKind.positional, none, none)]) =
      .error (.missingAnn pname)) ∧
    (convertCore (mkc false dh)
        (Ty.func none [(pname, PKind.positional, none, none)]) =
      .ok ([("type", JVal.str "object"),
            ("properties",
              JVal.dict [(pname, JVal.dict [("type", JVal.str "object")])]),
            ("required", JVal.list [JVal.str pname])], true)) := by
  refine ⟨?_, ?_, ?_, ?_⟩ <;>
    simp [convertCore, convertFunction, convertParams, testAnnResolve,
      hookResult, pydResult, mkc, primName, hp, jset, hasKey, attachDoc]

/-- Witness for C5 at the concrete inputs `n = "Foo"`, `pname = "a"`. -/
theorem c5_unsupported_policy_witness :
    (convertCore (mkc true none) (Ty.other "Foo") =
      .error (.unsupported (Ty.other "Foo"))) ∧
    (convertCore (mkc false none) (Ty.other "Foo") =
      .ok ([("type", JVal.str "object")], true)) ∧
    (convertCore (mkc true none)
        (Ty.func none [("a", PKind.positional, none, none)]) =
      .error (.missingAnn "a")) ∧
    (convertCore (mkc false none)
        (Ty.func none [("a", PKind.positional, none, none)]) =
      .ok ([("type", JVal.str "object"),
            ("properties",
              JVal.dict [("a", JVal.dict [("type", JVal.str "object")])]),
            ("required", JVal.list [JVal.str "a"])], true)) :=
  c5_unsupported_policy "Foo" "a" none (by decide)

/-! ## Claim C9: hook / delegate results are unconditionally required -/

/-- C9: whenever the `type_handler` hook returns a non-empty schema for a
node, or the pydantic delegate produces a non-empty schema for it, the
converter returns that schema with required=true, regardless of the
schema's content; consequently a record field whose type is resolved by
the hook is always listed in the record's `required`. -/
theorem c9_hook_forces_required (c : Conv) (t : Ty) :
    (∀ th : Ty → Schema, c.typeHandler = some th → th t ≠ [] →
      convertCore c t = .ok (th t, true)) ∧
    (∀ s : Schema, c.typeHandler = none → c.enablePydantic = true →
      s ≠ [] → convertCore c (Ty.pyd s) = .ok (s, true)) ∧
    (∀ (th : Ty → Schema) (fname : String),
      c.typeHandler = some th → th t ≠ [] →
      th (Ty.record none [(fname, t)]) = [] →
      convertCore c (Ty.record none [(fname, t)]) =
        .ok ([("type", JVal.str "object"),
              ("properties", JVal.dict [(fname, JVal.dict (th t))]),
              ("required", JVal.list [JVal.str fname])], true)) := by
  refine ⟨fun th h hne => ?_, fun s h hpy hne => ?_, fun th fname h hne hrec => ?_⟩
  · exact core_hook_some (by simp [hookResult, h, List.isEmpty_iff, hne])
  · exact core_pyd_some (by simp [hookResult, h])
      (by simp [pydResult, hpy, List.isEmpty_iff, hne])
  · have hmem : convertCore c t = .ok (th t, true) :=
      core_hook_some (by simp [hookResult, h, List.isEmpty_iff, hne])
    have hh1 : hookResult c (Ty.record none [(fname, t)]) = none := by
      simp [hookResult, h, hrec]
    have hp1 : pydResult c (Ty.record none [(fname, t)]) = none := by
      simp [pydResult]
    simp [convertCore, convertFields, hh1, hp1, hmem, jset, hasKey, attachDoc]

/-- The hook used in the C9 witness: resolves every non-record node to a
nullable `Value` schema and declines record nodes. -/
def c9HookW : Ty → Schema :=
  fun t =>
    match t with
    | .record _ _ => []
    | _ => [("type", JVal.str "null")]

/-- Witness for C9: a hook-produced nullable schema is still reported
required, and the enclosing record lists the field as required; the
pydantic delegate result is likewise required. -/
theorem c9_hook_forces_required_witness :
    (convertCore ⟨true, some c9HookW, none, false⟩ Ty.int =
      .ok ([("type", JVal.str "null")], true)) ∧
    (convertCore ⟨true, none, none, true⟩ (Ty.pyd [("title", JVal.str "M")]) =
      .ok ([("title", JVal.str "M")], true)) ∧
    (convertCore ⟨true, some c9HookW, none, false⟩
        (Ty.record none [("f", Ty.int)]) =
      .ok ([("type", JVal.str "object"),
            ("properties",
              JVal.dict [("f", JVal.dict [("type", JVal.str "null")])]),
            ("required", JVal.list [JVal.str "f"])], true)) :=
  ⟨(c9_hook_forces_required ⟨true, some c9HookW, none, false⟩ Ty.int).1
      c9HookW rfl (by simp [c9HookW]),
   (c9_hook_forces_required ⟨true, none, none, true⟩ Ty.int).2.1
      [("title", JVal.str "M")] rfl rfl (by simp),
   (c9_hook_forces_required ⟨true, some c9HookW, none, false⟩ Ty.int).2.2
      c9HookW "f" rfl (by simp [c9HookW]) (by simp [c9HookW])⟩

/-! ## Claim C7: annotated-type conversion and doc extraction -/

/-- C7: an annotated-type node first recurses into the wrapped inner type
and inherits its schema and requiredness exactly; only when that schema
has no `description` yet is the doc extractor (the supplied one, or the
built-in) applied to the full metadata tuple, and a non-empty result
attached as `description`; an inner schema that already has a description
is never rewritten.  The built-in extractor returns the first plain string
among the side-channel metadata values and never inspects the wrapped
type. -/
theorem c7_annotated_doc (r : Bool)
    (dh : Option (Ty → List JVal → Option String)) (inner : Ty)
    (meta : List JVal) (s : Schema) (rq : Bool)
    (hconv : convertCore (mkc r dh) inner = .ok (s, rq)) :
    (hasKey s "description" = true →
      convertCore (mkc r dh) (Ty.annotated inner meta) = .ok (s, rq)) ∧
    (hasKey s "description" = false →
      convertCore (mkc r dh) (Ty.annotated inner meta) =
        .ok ((match toDoc (mkc r dh) inner meta with
              | some d =>
                if d = "" then s else jset s "description" (JVal.str d)
              | none => s), rq)) ∧
    (∀ inner₂ : Ty, handeAnnotatedDoc inner meta = handeAnnotatedDoc inner₂ meta) ∧
    (dh = none → toDoc (mkc r dh) inner meta = meta.findSome? strOf) := by
  have hcore : convertCore (mkc r dh) (Ty.annotated inner meta) =
      (if hasKey s "description" then .ok (s, rq)
       else
         match toDoc (mkc r dh) inner meta with
         | some d =>
           if d = "" then .ok (s, rq)
           else .ok (jset s "description" (JVal.str d), rq)
         | none => .ok (s, rq)) := by
    simp only [convertCore, hookResult_mkc, pydResult_mkc, hconv]
  refine ⟨fun hd => ?_, fun hd => ?_, fun inner₂ => rfl, fun hdh => ?_⟩
  · rw [hcore]
    simp [hd]
  · rw [hcore]
    simp only [hd, Bool.false_eq_true, if_false]
    cases htd : toDoc (mkc r dh) inner meta with
    | none => rfl
    | some d => by_cases hde : d = "" <;> simp [hde]
  · subst hdh
    simp [toDoc, mkc, handeAnnotatedDoc]

/-- Witness for C7: `Annotated[int, 0, "doc"]` under the built-in
extractor attaches `"doc"`; an inner schema that already has a description
(via a nested annotation) is untouched. -/
theorem c7_annotated_doc_witness :
    (convertCore (mkc true none) (Ty.annotated Ty.int [JVal.int 0, JVal.str "doc"]) =
      .ok ([("type", JVal.str "integer"), ("description", JVal.str "doc")], true)) ∧
    (convertCore (mkc true none)
        (Ty.annotated (Ty.annotated Ty.int [JVal.str "inner doc"]) [JVal.str "outer"]) =
      .ok ([("type", JVal.str "integer"), ("description", JVal.str "inner doc")], true)) := by
  constructor
  · have h := (c7_annotated_doc true none Ty.int [JVal.int 0, JVal.str "doc"]
        [("type", JVal.str "integer")] true
        (by simp [convertCore, hookResult, pydResult, mkc, primName])).2.1
      (by simp [hasKey])
    simpa [toDoc, mkc, handeAnnotatedDoc, strOf, jset, hasKey] using h
  · have hinner : convertCore (mkc true none)
        (Ty.annotated Ty.int [JVal.str "inner doc"]) =
        .ok ([("type", JVal.str "integer"),
              ("description", JVal.str "inner doc")], true) := by
      simp [convertCore, hookResult, pydResult, mkc, toDoc, handeAnnotatedDoc,
        strOf, jset, hasKey, primName]
    have h := (c7_annotated_doc true none
        (Ty.annotated Ty.int [JVal.str "inner doc"]) [JVal.str "outer"]
        [("type", JVal.str "integer"), ("description", JVal.str "inner doc")]
        true hinner).1 (by simp [hasKey])
    exact h

/-! ## Claim C2: single-member unions -/

/-- Counterexample to C2 as stated: for the single-member union whose sole
member is the union `int | None`, the member's own conversion reports
required=false, yet the wrapping single-member union returns required=true
(the union-level requiredness, since the sole member is not `NoneType`):
the member's own requiredness is *not* propagated. -/
theorem c2_counterexample :
    (convertCore (mkc true none) (Ty.union [Ty.union [Ty.int, Ty.noneType]]) =
      .ok ([("type", JVal.list [JVal.str "integer", JVal.str "null"])], true)) ∧
    (convertCore (mkc true none) (Ty.union [Ty.int, Ty.noneType]) =
      .ok ([("type", JVal.list [JVal.str "integer", JVal.str "null"])], false)) := by
  constructor <;>
    simp [convertCore, convertUnion, convertList, hookResult, pydResult, mkc,
      primName, containsNone, isNoneTy, scalarOk, getTypeVal, jget, isArrObj]

/-- C2 (amended): a single-member union returns the member's schema
together with the requiredness computed at the wrapping union level
(true iff the sole member is not the none type); the member's own
requiredness is discarded. -/
theorem c2_amended_single_member (r : Bool)
    (dh : Option (Ty → List JVal → Option String)) (m : Ty) (s : Schema)
    (rm : Bool) (hconv : convertCore (mkc r dh) m = .ok (s, rm)) :
    convertCore (mkc r dh) (Ty.union [m]) = .ok (s, !isNoneTy m) := by
  rw [core_union_mkc]
  simp [convertUnion, hconv, containsNone]

/-- Witness for C2 (amended): the sole member `Annotated[None]` converts
with required=false, but the wrapping union reports required=true. -/
theorem c2_amended_single_member_witness :
    convertCore (mkc true none)
        (Ty.union [Ty.annotated Ty.noneType [JVal.int 7]]) =
      .ok ([("type", JVal.str "null")], true) := by
  have h := c2_amended_single_member true none
    (Ty.annotated Ty.noneType [JVal.int 7]) [("type", JVal.str "null")] false
    (by simp [convertCore, hookResult, pydResult, mkc, toDoc,
      handeAnnotatedDoc, strOf])
  simpa [isNoneTy] using h

/-! ## Claim C3: the optional-null law -/

/-- Counterexample to C3 as stated: for `T = int`,
`convert(Union[int, NoneType])` is required=false but its schema is
`{"type": ["integer", "null"]}`, which is not structurally equal to
`convert(int)`'s schema `{"type": "integer"}`. -/
theorem c3_counterexample :
    (convertCore (mkc true none) (Ty.union [Ty.int, Ty.noneType]) =
      .ok ([("type", JVal.list [JVal.str "integer", JVal.str "null"])], false)) ∧
    (convertCore (mkc true none) Ty.int =
      .ok ([("type", JVal.str "integer")], true)) ∧
    ([("type", JVal.list [JVal.str "integer", JVal.str "null"])] : Schema) ≠
      [("type", JVal.str "integer")] := by
  refine ⟨?_, ?_, ?_⟩
  · simp [convertCore, convertUnion, convertList, hookResult, pydResult, mkc,
      primName, containsNone, isNoneTy, scalarOk, getTypeVal, jget, isArrObj]
  · simp [convertCore, hookResult, pydResult, mkc, primName]
  · simp

/-- C3 (amended): for a non-union `T`, `convert(Union[T, NoneType])` is
required=false, and its schema is `convert(T)`'s schema with null
adjoined — when `convert(T)`'s schema carries a `type` other than
`"array"`/`"object"` the result is a `Value` whose `type` is the pair
`[T's type value, "null"]`; otherwise it is a `OneOf` over
`[convert(T)'s schema, {"type": "null"}]`.  The schema is never
structurally equal to `convert(T)`'s schema alone. -/
theorem c3_amended_optional_null (r : Bool)
    (dh : Option (Ty → List JVal → Option String)) (t : Ty) (s : Schema)
    (rt : Bool) (_hu : isUnionTy t = false)
    (hconv : convertCore (mkc r dh) t = .ok (s, rt)) :
    convertCore (mkc r dh) (Ty.union [t, Ty.noneType]) =
      .ok ((if scalarOk s then
              [("type", JVal.list [getTypeVal s, JVal.str "null"])]
            else
              [("oneOf", JVal.list
                 [JVal.dict s, JVal.dict [("type", JVal.str "null")]])]),
        false) := by
  rw [core_union_mkc]
  have hnull := core_none_mkc r dh
  simp only [convertUnion, convertList, hconv, hnull]
  have hsn : scalarOk [("type", JVal.str "null")] = true := by
    simp [scalarOk, jget, isArrObj]
  have hgn : getTypeVal [("type", JVal.str "null")] = JVal.str "null" := by
    simp [getTypeVal, jget]
  by_cases hs : scalarOk s <;>
    simp [hs, hsn, hgn, containsNone, isNoneTy, jget]

/-- Witness for C3 (amended), exercising the `OneOf` branch: for
`T = list` (a bare array schema) the optional wrapping produces a `OneOf`
of the array schema and the null schema, required=false. -/
theorem c3_amended_optional_null_witness :
    convertCore (mkc true none) (Ty.union [Ty.bareList, Ty.noneType]) =
      .ok ([("oneOf", JVal.list
              [JVal.dict [("type", JVal.str "array")],
               JVal.dict [("type", JVal.str "null")]])], false) := by
  have h := c3_amended_optional_null true none Ty.bareList
    [("type", JVal.str "array")] true (by simp [isUnionTy])
    (by simp [convertCore, hookResult, pydResult, mkc, primName])
  simpa [scalarOk, jget, isArrObj] using h

/-! ## Claim C1: the union collapse rule -/

/-- When every member schema's `type` value is the string of a kind that
is neither `"array"` nor `"object"`, the collapse condition of
`_convert_union` holds and the collected `type` values are exactly those
kind strings, in order and with duplicates retained. -/
theorem union_collapse_aux (schemas : List Schema) (kinds : List String)
    (hk : schemas.map (fun s => jget s "type") =
          kinds.map (fun k => some (JVal.str k)))
    (hsc : ∀ k ∈ kinds, k ≠ "array" ∧ k ≠ "object") :
    schemas.all scalarOk = true ∧
    schemas.map getTypeVal = kinds.map JVal.str := by
  induction schemas generalizing kinds with
  | nil =>
    cases kinds with
    | nil => simp
    | cons k ks => simp at hk
  | cons s ss ih =>
    cases kinds with
    | nil => simp at hk
    | cons k ks =>
      simp only [List.map_cons, List.cons.injEq] at hk
      obtain ⟨h1, h2⟩ := hk
      obtain ⟨hk1, hk2⟩ := hsc k (by simp)
      have ihh := ih ks h2 (fun k' hk' => hsc k' (by simp [hk']))
      refine ⟨?_, ?_⟩
      · simp only [List.all_cons, ihh.1, Bool.and_true]
        simp [scalarOk, h1, isArrObj, hk1, hk2]
      · simp [getTypeVal, h1, ihh.2]

/-- C1 (amended): for a union of two or more members, when every member's
schema carries a `type` field whose value is not `"array"` and not
`"object"` (a scalar kind string, or even an already-list-valued type),
the result is a single `Value` whose `type` list is the in-order list of
the members' `type` values, duplicates retained (no deduplication); in
particular, when every member's `type` is a scalar kind string, that list
is the members' kinds in order, undeduplicated.  When some member's
schema has no `type` field, or has `type` `"array"`/`"object"`, the
result is a `OneOf` over the full list of the members' own schemas.
Requiredness is true iff `NoneType` is not among the members. -/
theorem c1_amended_union_collapse (r : Bool)
    (dh : Option (Ty → List JVal → Option String)) (m₁ m₂ : Ty)
    (rest : List Ty) (schemas : List Schema)
    (hconv : convertList (mkc r dh) (m₁ :: m₂ :: rest) = .ok schemas) :
    ((∀ s ∈ schemas, scalarOk s = true) →
      convertCore (mkc r dh) (Ty.union (m₁ :: m₂ :: rest)) =
        .ok ([("type", JVal.list (schemas.map getTypeVal))],
          !containsNone (m₁ :: m₂ :: rest))) ∧
    (∀ kinds : List String,
      schemas.map (fun s => jget s "type") =
        kinds.map (fun k => some (JVal.str k)) →
      (∀ k ∈ kinds, k ≠ "array" ∧ k ≠ "object") →
      convertCore (mkc r dh) (Ty.union (m₁ :: m₂ :: rest)) =
        .ok ([("type", JVal.list (kinds.map JVal.str))],
          !containsNone (m₁ :: m₂ :: rest))) ∧
    ((∃ s ∈ schemas, scalarOk s = false) →
      convertCore (mkc r dh) (Ty.union (m₁ :: m₂ :: rest)) =
        .ok ([("oneOf", JVal.list (schemas.map JVal.dict))],
          !containsNone (m₁ :: m₂ :: rest))) := by
  refine ⟨fun hsc => ?_, fun kinds hk hsc => ?_, fun hex => ?_⟩
  · have hall : schemas.all scalarOk = true := List.all_eq_true.mpr hsc
    rw [core_union_mkc]
    simp only [convertUnion, hconv, hall, if_true]
  · obtain ⟨hall, hmapty⟩ := union_collapse_aux schemas kinds hk hsc
    rw [core_union_mkc]
    simp only [convertUnion, hconv, hall, if_true, hmapty]
  · have hall : schemas.all scalarOk = false := by
      rcases hex with ⟨s, hs, hf⟩
      cases hb : schemas.all scalarOk with
      | false => rfl
      | true =>
        have hst := List.all_eq_true.mp hb s hs
        simp [hf] at hst
    rw [core_union_mkc]
    simp only [convertUnion, hconv, hall, Bool.false_eq_true, if_false]

/-- Counterexample to C1 as stated: the union
`Union[bool, Annotated[bool, 0]]` has two members both converting to the
bare scalar `{"type": "boolean"}`, whose deduplicated-in-order kind list
is `["boolean"]`; the converter instead returns the type list
`["boolean", "boolean"]` — member kinds are collected without
deduplication. -/
theorem c1_counterexample :
    (convertCore (mkc true none)
        (Ty.union [Ty.bool, Ty.annotated Ty.bool [JVal.int 0]]) =
      .ok ([("type", JVal.list [JVal.str "boolean", JVal.str "boolean"])],
        true)) ∧
    JVal.list [JVal.str "boolean", JVal.str "boolean"] ≠
      JVal.list [JVal.str "boolean"] := by
  constructor
  · simp [convertCore, convertUnion, convertList, hookResult, pydResult, mkc,
      primName, containsNone, isNoneTy, scalarOk, getTypeVal, jget, isArrObj,
      toDoc, handeAnnotatedDoc, strOf]
  · simp

/-- Witness for C1 (amended): `Union[int, str]` collapses to a single
`Value` with the in-order kind list, required=true. -/
theorem c1_amended_union_collapse_witness :
    convertCore (mkc true none) (Ty.union [Ty.int, Ty.str]) =
      .ok ([("type", JVal.list [JVal.str "integer", JVal.str "string"])],
        true) := by
  have h := (c1_amended_union_collapse true none Ty.int Ty.str []
      [[("type", JVal.str "integer")], [("type", JVal.str "string")]]
      (by simp [convertList, convertCore, hookResult, pydResult, mkc,
        primName])).2.1
      ["integer", "string"] (by simp [jget]) (by decide)
  simpa [containsNone, isNoneTy] using h

/-! ## Claim C6: callable parameter-list conversion -/

/-- C6: the parameter loop maps each non-skipped parameter name to the
schema of its declared type (or of its default value's type when
undeclared); a present default value is attached to that schema as
`default` and the parameter stays out of `required` regardless of the
type-level requiredness; a parameter enters `required` iff it has no
default and its type conversion reported required=true; `*args`,
`**kwargs` and `self` parameters contribute no property and no
requiredness; the resulting properties/required are wrapped in an
`Object` schema that is itself required. -/
theorem c6_callable_params (c : Conv)
    (ps : List (String × PKind × Option Ty × Option JVal))
    (props : List (String × JVal)) (req : List String) :
    (∀ (name : String) (t : Ty) (d : JVal) (s : Schema) (isReq : Bool),
      name ≠ "self" → convertCore c t = .ok (s, isReq) →
      convertParams c ((name, PKind.positional, some t, some d) :: ps)
          props req =
        convertParams c ps
          (jset props name (JVal.dict (jset s "default" d))) req) ∧
    (∀ (name : String) (t : Ty) (s : Schema) (isReq : Bool),
      name ≠ "self" → convertCore c t = .ok (s, isReq) →
      convertParams c ((name, PKind.positional, some t, none) :: ps)
          props req =
        convertParams c ps (jset props name (JVal.dict s))
          (if isReq then req ++ [name] else req)) ∧
    (∀ (name : String) (d : JVal) (s : Schema) (isReq : Bool),
      name ≠ "self" → convertCore c (typeOfVal d) = .ok (s, isReq) →
      convertParams c ((name, PKind.positional, none, some d) :: ps)
          props req =
        convertParams c ps
          (jset props name (JVal.dict (jset s "default" d))) req) ∧
    (∀ (name : String) (kind : PKind) (ann : Option Ty) (d : Option JVal),
      kind = PKind.varPositional ∨ kind = PKind.varKeyword ∨ name = "self" →
      convertParams c ((name, kind, ann, d) :: ps) props req =
        convertParams c ps props req) ∧
    (∀ (doc : Option String)
      (params : List (String × PKind × Option Ty × Option JVal))
      (props2 : List (String × JVal)) (req2 : List String),
      c.typeHandler = none →
      convertParams c params [] [] = .ok (props2, req2) →
      convertCore c (Ty.func doc params) =
        .ok (attachDoc
          [("type", JVal.str "object"),
           ("properties", JVal.dict props2),
           ("required", JVal.list (req2.map JVal.str))] doc, true)) := by
  refine ⟨fun name t d s isReq hn hconv => ?_,
    fun name t s isReq hn hconv => ?_,
    fun name d s isReq hn hconv => ?_,
    fun name kind ann d hsk => ?_,
    fun doc params props2 req2 hth hps => ?_⟩
  · simp [convertParams, testAnnResolve, hn, hconv]
  · simp [convertParams, testAnnResolve, hn, hconv]
  · simp [convertParams, testAnnResolve, hn, hconv]
  · simp only [convertParams]
    rw [if_pos hsk]
  · have hh : hookResult c (Ty.func doc params) = none := by
      simp [hookResult, hth]
    have hp : pydResult c (Ty.func doc params) = none := by
      simp [pydResult]
    simp [convertCore, convertFunction, hh, hp, hps]

/-- Witness for C6 at the parameter `b: str = "x"` of the spec's example
callable: the default is attached, and `b` stays out of `required` even
though `str` converts as required. -/
theorem c6_callable_params_witness :
    convertParams (mkc true none)
        [("b", PKind.positional, some Ty.str, some (JVal.str "x"))]
        [("a", JVal.dict [("type", JVal.str "integer")])] ["a"] =
      convertParams (mkc true none) []
        (jset [("a", JVal.dict [("type", JVal.str "integer")])] "b"
          (JVal.dict (jset [("type", JVal.str "string")] "default"
            (JVal.str "x"))))
        ["a"] :=
  (c6_callable_params (mkc true none) [] _ _).1 "b" Ty.str (JVal.str "x")
    [("type", JVal.str "string")] true (by decide)
    (by simp [convertCore, hookResult, pydResult, mkc, primName])

/-! ## Claim C4: the scalar-kind invariant of a list-valued `type` -/

/-- C4 refutation at the failing input
`Union[int, Annotated[Union[str, float], 0]]`: the second member's own
schema already carries the list-valued type `["string", "number"]`, it
passes the collapse test (`"type"` present and not `"array"`/`"object"`),
and the produced `Value` schema's `type` list contains the nested list
`["string", "number"]` — an element that is not a scalar kind name,
violating `model.py`'s declared
`ValueType = ValueTypeItem | list[ValueTypeItem]`. -/
theorem c4_scalar_kind_invariant_refuted :
    (convertCore (mkc true none)
        (Ty.union [Ty.int,
          Ty.annotated (Ty.union [Ty.str, Ty.float]) [JVal.int 0]]) =
      .ok ([("type", JVal.list
              [JVal.str "integer",
               JVal.list [JVal.str "string", JVal.str "number"]])], true)) ∧
    isStrVal (JVal.list [JVal.str "string", JVal.str "number"]) = false := by
  constructor
  · simp [convertCore, convertUnion, convertList, hookResult, pydResult, mkc,
      primName, containsNone, isNoneTy, scalarOk, getTypeVal, jget, isArrObj,
      toDoc, handeAnnotatedDoc, strOf]
  · rfl
